import Mathlib

/-!
Shallow embedding of `src/worker/mcp-worker.js`: a worker-hosted WASI-style
stdio bridge.  The worker keeps three globals (`stdoutBuffer`, `stdinBuffer`,
`wasmInstance`), implements two host hooks (`fd_write`, `fd_read`) over the
module's linear memory, loads the module in `initWasm`, and receives input
chunks in `onmessage`.

Modelling conventions:
- The module's linear memory is a byte list (`List Nat`); `Uint32Array`
  accesses are little-endian 4-byte reads/writes.
- JS text is modelled at the byte level: `TextDecoder.decode` and
  `TextEncoder.encode` are treated as the identity on byte sequences, so the
  string buffers `stdoutBuffer`/`stdinBuffer` are byte lists as well, string
  concatenation is list append, and `data.includes('\n')` is membership of
  byte 10.
- JS `TypedArray` constructors throw a `RangeError` when the requested view
  does not fit the buffer (or the offset of a `Uint32Array` is not 4-byte
  aligned); this is modelled by the explicit bounds tests producing a
  `thrown` outcome.  Globals mutated before a throw stay mutated, and
  messages posted before a throw stay posted, exactly as in JS, so every
  hook result carries the final buffer, memory and event list alongside the
  outcome.
-/

/-- A message posted by the worker to the outside world
(`postMessage({type: ...})`). -/
inductive Event where
  | init (serverPath : String)
  | stdout (data : List Nat)
  | stderr (data : List Nat)
deriving DecidableEq

/-- Result of one host-hook call: either a WASI status code returned to the
module, or a thrown JS exception (which aborts the module's execution). -/
inductive HookOutcome where
  | ok (status : Int)
  | thrown (msg : String)
deriving DecidableEq

/-- UTF-8 bytes of an ASCII string (used only to write concrete inputs and
expected event payloads readably). -/
def strBytes (s : String) : List Nat := s.data.map Char.toNat

/-- Little-endian 32-bit read at byte address `a`
(`new Uint32Array(memory.buffer, a, _)[i]`). -/
def readU32 (m : List Nat) (a : Nat) : Nat :=
  m.getD a 0 + 256 * m.getD (a + 1) 0 + 65536 * m.getD (a + 2) 0 +
    16777216 * m.getD (a + 3) 0

/-- Little-endian 32-bit store of `v >>> 0` at byte address `a`
(`new Uint32Array(memory.buffer, a, 1)[0] = v`). -/
def writeU32 (m : List Nat) (a v : Nat) : List Nat :=
  let w := v % 4294967296
  (((m.set a (w % 256)).set (a + 1) (w / 256 % 256)).set (a + 2)
      (w / 65536 % 256)).set (a + 3) (w / 16777216 % 256)

/-- The byte range `[ptr, ptr+len)` of memory
(`new Uint8Array(memory.buffer, ptr, len)` viewed as data). -/
def sliceMem (m : List Nat) (ptr len : Nat) : List Nat := (m.drop ptr).take len

/-- Store the byte list `bs` into memory starting at address `a`
(`new Uint8Array(memory.buffer, a, bs.length).set(bs)`). -/
def writeBytes : List Nat → Nat → List Nat → List Nat
  | m, _, [] => m
  | m, a, b :: bs => writeBytes (m.set a b) (a + 1) bs

/-- State accumulated by the `fd_write` iovec loop. -/
structure IovsWriteResult where
  buf : List Nat
  written : Nat
  events : List Event
  err : Option String
deriving DecidableEq

/-- The `for (let i = 0; i < iovsLen; i++)` loop of `fd_write`, over the list
of remaining indices.  For each index it reads the (pointer, length) pair from
the iovec array at `iovs`, takes the referenced bytes as `data`, and then:
for fd 1 appends `data` to `stdoutBuffer` and, when `data` contains a newline
(byte 10), posts `stdout` carrying the whole buffer and resets it; for fd 2
posts `stderr` carrying exactly `data`.  `written` accumulates the declared
lengths.  Constructing `new Uint8Array(memory.buffer, ptr, len)` out of range
throws, which stops the loop with the state reached so far. -/
def writeIovs (mem : List Nat) (iovs : Nat) (fd : Int) :
    List Nat → List Nat → Nat → IovsWriteResult
  | [], buf, written => ⟨buf, written, [], none⟩
  | i :: rest, buf, written =>
    let ptr := readU32 mem (iovs + 8 * i)
    let len := readU32 mem (iovs + 8 * i + 4)
    if ptr + len ≤ mem.length then
      let data := sliceMem mem ptr len
      if fd = 1 then
        if 10 ∈ data then
          let r := writeIovs mem iovs fd rest [] (written + len)
          ⟨r.buf, r.written, Event.stdout (buf ++ data) :: r.events, r.err⟩
        else
          writeIovs mem iovs fd rest (buf ++ data) (written + len)
      else
        let r := writeIovs mem iovs fd rest buf (written + len)
        ⟨r.buf, r.written, Event.stderr data :: r.events, r.err⟩
    else ⟨buf, written, [], some "RangeError"⟩

/-- Full result of an `fd_write` hook call: the outcome, the final
`stdoutBuffer` global, the final module memory, and the posted messages. -/
structure WriteResult where
  outcome : HookOutcome
  stdoutBuffer : List Nat
  memory : List Nat
  events : List Event
deriving DecidableEq

/-- The `fd_write(fd, iovs, iovsLen, nwritten)` host hook.  Streams other
than 1 (stdout) and 2 (stderr) are rejected with status -1 before any memory
access.  Otherwise the iovec view `new Uint32Array(memory.buffer, iovs,
iovsLen * 2)` is constructed (throwing if misaligned or out of range), the
iovec loop runs, and finally the total `written` is stored as a u32 at
`nwritten` (throwing if out of range) and status 0 is returned. -/
def fd_write (stdoutBuffer mem : List Nat) (fd : Int)
    (iovs iovsLen nwritten : Nat) : WriteResult :=
  if fd = 1 ∨ fd = 2 then
    if iovs % 4 = 0 ∧ iovs + 8 * iovsLen ≤ mem.length then
      let r := writeIovs mem iovs fd (List.range iovsLen) stdoutBuffer 0
      match r.err with
      | some msg => ⟨.thrown msg, r.buf, mem, r.events⟩
      | none =>
        if nwritten % 4 = 0 ∧ nwritten + 4 ≤ mem.length then
          ⟨.ok 0, r.buf, writeU32 mem nwritten r.written, r.events⟩
        else ⟨.thrown "RangeError", r.buf, mem, r.events⟩
    else ⟨.thrown "RangeError", stdoutBuffer, mem, []⟩
  else ⟨.ok (-1), stdoutBuffer, mem, []⟩

/-- State accumulated by the `fd_read` iovec loop: current memory, bytes
copied so far, and a pending exception if a data view was out of range. -/
structure IovsReadResult where
  mem : List Nat
  read : Nat
  err : Option String
deriving DecidableEq

/-- The `for (let i = 0; i < iovsLen && read < bytes.length; i++)` loop of
`fd_read`: while queued bytes remain, read the (pointer, length) pair for
index `i` from the current memory, copy `min len (remaining)` queued bytes to
`ptr`, and continue.  An out-of-range destination view throws, stopping the
loop with the memory and count reached so far. -/
def readIovs (bytes : List Nat) (iovs : Nat) :
    List Nat → List Nat → Nat → IovsReadResult
  | [], mem, read => ⟨mem, read, none⟩
  | i :: rest, mem, read =>
    if read < bytes.length then
      let ptr := readU32 mem (iovs + 8 * i)
      let len := readU32 mem (iovs + 8 * i + 4)
      let toRead := min len (bytes.length - read)
      if ptr + toRead ≤ mem.length then
        readIovs bytes iovs rest
          (writeBytes mem ptr ((bytes.drop read).take toRead)) (read + toRead)
      else ⟨mem, read, some "RangeError"⟩
    else ⟨mem, read, none⟩

/-- Full result of an `fd_read` hook call: the outcome, the final
`stdinBuffer` global, and the final module memory. -/
structure ReadResult where
  outcome : HookOutcome
  stdinBuffer : List Nat
  memory : List Nat
deriving DecidableEq

/-- The `fd_read(fd, iovs, iovsLen, nread)` host hook.  Guard:
`fd === 0 && stdinBuffer` — any other fd, or an empty queue, returns -1
immediately with nothing written to memory.  Otherwise the iovec view is
constructed (throwing if misaligned or out of range), the queue bytes
(`TextEncoder` output, i.e. the queue itself at byte level) are copied into
the vectors, then `stdinBuffer` is cleared unconditionally and the byte count
is stored as a u32 at `nread` (throwing if out of range) before returning
status 0.  Note the clear precedes the `nread` store, so even a throw at the
store leaves the queue cleared. -/
def fd_read (stdinBuffer mem : List Nat) (fd : Int)
    (iovs iovsLen nread : Nat) : ReadResult :=
  if fd = 0 ∧ stdinBuffer ≠ [] then
    if iovs % 4 = 0 ∧ iovs + 8 * iovsLen ≤ mem.length then
      let r := readIovs stdinBuffer iovs (List.range iovsLen) mem 0
      match r.err with
      | some msg => ⟨.thrown msg, stdinBuffer, r.mem⟩
      | none =>
        if nread % 4 = 0 ∧ nread + 4 ≤ r.mem.length then
          ⟨.ok 0, [], writeU32 r.mem nread r.read⟩
        else ⟨.thrown "RangeError", [], r.mem⟩
    else ⟨.thrown "RangeError", stdinBuffer, mem⟩
  else ⟨.ok (-1), stdinBuffer, mem⟩

/-- Outcome of the environment-dependent part of `initWasm` for a given
source locator: `WebAssembly.instantiateStreaming(fetch(serverPath), ...)`
either throws (`loadError`: network failure, invalid binary, failed
instantiation — `wasmInstance` is never assigned), or succeeds, after which
`wasmInstance` is assigned and `_start()` either returns normally (`ok`) or
throws a runtime trap (`startTrap`).  The fetch/compile/run behaviour itself
lives outside the repository, so it is abstracted as this three-way outcome;
the I/O the module performs during `_start` goes through `fd_write`/`fd_read`
and is verified separately. -/
inductive LoadOutcome where
  | ok
  | loadError (msg : String)
  | startTrap (msg : String)
deriving DecidableEq

/-- The control flow of `initWasm(serverPath)`: on success `wasmInstance` is
assigned, `_start()` is invoked, and `{type: 'init', serverPath}` is posted;
any exception from fetch/compile/instantiation or from `_start` is caught by
the surrounding `try/catch`, which posts a single
`{type: 'stderr', data: 'Init error: ' + e.message}` instead (and skips the
`init` message).  Returns whether `wasmInstance` ended up assigned, and the
messages posted by this control flow. -/
def initWasm (outcome : LoadOutcome) (serverPath : String) :
    Bool × List Event :=
  match outcome with
  | .ok => (true, [Event.init serverPath])
  | .loadError msg =>
      (false, [Event.stderr (strBytes ("Init error: " ++ msg))])
  | .startTrap msg =>
      (true, [Event.stderr (strBytes ("Init error: " ++ msg))])

/-- The worker's global state as seen by `onmessage`: the two text buffers
and whether `wasmInstance` is non-null. -/
structure Session where
  stdoutBuffer : List Nat
  stdinBuffer : List Nat
  loaded : Bool
deriving DecidableEq

/-- One inbound `{type: 'stdin', serverPath, data}` message. -/
structure StdinMsg where
  serverPath : String
  data : List Nat
deriving DecidableEq

/-- The worker's `onmessage` handler for a `stdin` message: if
`wasmInstance` is null it calls `initWasm(event.data.serverPath)`, then in
all cases appends `event.data.data` to `stdinBuffer`.  Returns the new
state, the messages posted, and the list of source locators passed to
`initWasm` by this call (empty when no load was triggered). -/
def onmessage (outcomes : String → LoadOutcome) (s : Session)
    (m : StdinMsg) : Session × List Event × List String :=
  if s.loaded then
    ({ s with stdinBuffer := s.stdinBuffer ++ m.data }, [], [])
  else
    let r := initWasm (outcomes m.serverPath) m.serverPath
    ({ s with loaded := r.1, stdinBuffer := s.stdinBuffer ++ m.data },
      r.2, [m.serverPath])

/-- A sequence of inbound `stdin` messages processed by `onmessage`,
collecting all posted messages and all `initWasm` invocations. -/
def runStdins (outcomes : String → LoadOutcome) :
    Session → List StdinMsg → Session × List Event × List String
  | s, [] => (s, [], [])
  | s, m :: rest =>
    let r1 := onmessage outcomes s m
    let r2 := runStdins outcomes r1.1 rest
    (r2.1, r1.2.1 ++ r2.2.1, r1.2.2 ++ r2.2.2)

/-- Arguments of one `fd_write` call on the primary stream: the memory
snapshot the module presents and the iovec/out-pointer arguments. -/
structure WriteCall where
  mem : List Nat
  iovs : Nat
  iovsLen : Nat
  nwritten : Nat
deriving DecidableEq

/-- A sequence of primary-stream (`fd = 1`) `fd_write` calls, threading the
`stdoutBuffer` global through and collecting all posted messages. -/
def runWrites : List Nat → List WriteCall → List Nat × List Event
  | buf, [] => (buf, [])
  | buf, c :: rest =>
    let r := fd_write buf c.mem 1 c.iovs c.iovsLen c.nwritten
    let r2 := runWrites r.stdoutBuffer rest
    (r2.1, r.events ++ r2.2)

/-- Concrete memory for the C10 failing input: a single iovec at address 0
declaring pointer 1000 and length 50, far beyond the 16-byte memory. -/
def c10mem : List Nat := [232, 3, 0, 0, 50, 0, 0, 0, 0, 0, 0, 0, 0, 0, 0, 0]

/-- C10: the spec requires the write hook to be bounds-checked and to fail
cleanly on an out-of-range vector.  The code has no bounds check: at the
failing input (16-byte memory, one iovec declaring pointer 1000 and length
50) the `Uint8Array` constructor throws a `RangeError`, so the hook call
never returns a status to the module — the exception aborts the module's
execution (it is caught only by `initWasm`'s catch-all).  Host memory is not
corrupted and no event is posted by the hook itself. -/
theorem c10_oob_write_throws :
    (fd_write [] c10mem 1 0 1 8).outcome = .thrown "RangeError" ∧
    (fd_write [] c10mem 1 0 1 8).memory = c10mem ∧
    (fd_write [] c10mem 1 0 1 8).events = [] := by decide

/-- C3 (amended): a read-hook call on stream 0 with an empty Inbound Queue
returns failure (-1) and leaves the module memory — including the bytes-read
output location — completely untouched; being a total function of its
arguments, it returns immediately without blocking.  (The original claim
said zero is written to the bytes-read location; the code writes nothing.) -/
theorem c3_empty_queue_read (mem : List Nat) (iovs iovsLen nread : Nat) :
    fd_read [] mem 0 iovs iovsLen nread = ⟨.ok (-1), [], mem⟩ := by
  simp [fd_read]

/-- C3 counterexample: with the byte at the bytes-read location `nread = 0`
initially 7, a read on an empty queue returns -1 but leaves that location
holding 7, not 0 — so the claim that the hook "writes zero to the bytes-read
output location" is false. -/
theorem c3_counterexample :
    (fd_read [] [7, 0, 0, 0] 0 4 0 0).outcome = .ok (-1) ∧
    (fd_read [] [7, 0, 0, 0] 0 4 0 0).memory = [7, 0, 0, 0] ∧
    readU32 (fd_read [] [7, 0, 0, 0] 0 4 0 0).memory 0 ≠ 0 := by decide

/-- C9: a write-hook call with any stream id other than 1 (primary) or
2 (diagnostic) returns failure (-1), leaves the buffer and the module memory
untouched (nothing is written, not even the bytes-written location), and
posts no event: the module is signalled, not crashed. -/
theorem c9_unsupported_stream (buf mem : List Nat) (fd : Int)
    (iovs iovsLen nwritten : Nat) (h1 : fd ≠ 1) (h2 : fd ≠ 2) :
    fd_write buf mem fd iovs iovsLen nwritten = ⟨.ok (-1), buf, mem, []⟩ := by
  simp [fd_write, h1, h2]

/-- Witness for C9 at the concrete stream id 3. -/
theorem c9_witness :
    fd_write [1] [2, 3] 3 0 1 0 = ⟨.ok (-1), [1], [2, 3], []⟩ :=
  c9_unsupported_stream [1] [2, 3] 3 0 1 0 (by decide) (by decide)

/-- C7: a diagnostic-stream (`fd = 2`) write call with a single in-bounds
vector returns success, posts exactly one `stderr` event carrying exactly
the vector's bytes, and leaves the primary accumulator unchanged — for every
buffered state `buf` and regardless of whether the data contains a line
terminator. -/
theorem c7_stderr_unbuffered (buf mem : List Nat) (iovs nwritten : Nat)
    (ha : iovs % 4 = 0) (hb : iovs + 8 ≤ mem.length)
    (hd : readU32 mem iovs + readU32 mem (iovs + 4) ≤ mem.length)
    (hn : nwritten % 4 = 0) (hn2 : nwritten + 4 ≤ mem.length) :
    fd_write buf mem 2 iovs 1 nwritten =
      ⟨.ok 0, buf, writeU32 mem nwritten (readU32 mem (iovs + 4)),
        [Event.stderr
          (sliceMem mem (readU32 mem iovs) (readU32 mem (iovs + 4)))]⟩ := by
  simp [fd_write, writeIovs, ha, hb, hd, hn, hn2]

/-- Concrete memory for the C7 witness: one iovec at address 0 pointing at
the 7 bytes of "warn: x" stored at address 16. -/
def c7mem : List Nat :=
  [16, 0, 0, 0, 7, 0, 0, 0, 0, 0, 0, 0, 0, 0, 0, 0,
   119, 97, 114, 110, 58, 32, 120, 0]

/-- Witness for C7: writing "warn: x" to the diagnostic stream while the
primary accumulator holds unrelated bytes posts exactly one `stderr` event
with data "warn: x" and leaves the accumulator alone. -/
theorem c7_witness :
    fd_write [1, 2, 3] c7mem 2 0 1 8 =
      ⟨.ok 0, [1, 2, 3], writeU32 c7mem 8 7,
        [Event.stderr (strBytes "warn: x")]⟩ := by
  rw [c7_stderr_unbuffered [1, 2, 3] c7mem 0 8 (by decide) (by decide)
    (by decide) (by decide) (by decide)]
  decide

/-- Concrete memory for the C4 counterexample: one iovec at address 0
pointing at the 3 bytes "a\x0ab" (text after the terminator!) stored at
address 16. -/
def c4mem : List Nat :=
  [16, 0, 0, 0, 3, 0, 0, 0, 0, 0, 0, 0, 0, 0, 0, 0,
   97, 10, 98, 0, 0, 0, 0, 0]

/-- C4 counterexample: a single primary-stream write of "a\x0ab" from an
empty accumulator releases the whole buffer "a\x0ab" — including the byte
"b" after the last terminator — and resets the accumulator to empty.  The
claim that only the prefix up to and including the terminator ("a\x0a") is
released while the tail ("b") is retained is therefore false. -/
theorem c4_counterexample :
    (fd_write [] c4mem 1 0 1 8).events = [Event.stdout [97, 10, 98]] ∧
    (fd_write [] c4mem 1 0 1 8).stdoutBuffer = [] ∧
    [Event.stdout [97, 10, 98]] ≠ [Event.stdout [97, 10]] ∧
    (fd_write [] c4mem 1 0 1 8).stdoutBuffer ≠ [98] := by decide

/-- C4 (amended): for a single-vector primary-stream write, content is
released only when the newly written chunk contains a line terminator
(byte 10); what is released is then the ENTIRE accumulator contents
(previous buffer plus the whole new chunk, including any text after the
last terminator), the accumulator is reset to empty, and the released data
always contains at least one terminator.  When the chunk has no terminator,
nothing is released and the chunk is appended to the accumulator. -/
theorem c4_flush_whole_buffer (buf mem : List Nat) (iovs nwritten : Nat)
    (ha : iovs % 4 = 0) (hb : iovs + 8 ≤ mem.length)
    (hd : readU32 mem iovs + readU32 mem (iovs + 4) ≤ mem.length)
    (hn : nwritten % 4 = 0) (hn2 : nwritten + 4 ≤ mem.length) :
    (10 ∈ sliceMem mem (readU32 mem iovs) (readU32 mem (iovs + 4)) →
      fd_write buf mem 1 iovs 1 nwritten =
        ⟨.ok 0, [], writeU32 mem nwritten (readU32 mem (iovs + 4)),
          [Event.stdout (buf ++
            sliceMem mem (readU32 mem iovs) (readU32 mem (iovs + 4)))]⟩ ∧
      10 ∈ buf ++ sliceMem mem (readU32 mem iovs) (readU32 mem (iovs + 4))) ∧
    (10 ∉ sliceMem mem (readU32 mem iovs) (readU32 mem (iovs + 4)) →
      fd_write buf mem 1 iovs 1 nwritten =
        ⟨.ok 0,
          buf ++ sliceMem mem (readU32 mem iovs) (readU32 mem (iovs + 4)),
          writeU32 mem nwritten (readU32 mem (iovs + 4)), []⟩) := by
  constructor
  · intro hmem
    refine ⟨?_, List.mem_append_right _ hmem⟩
    simp [fd_write, writeIovs, ha, hb, hd, hn, hn2, hmem]
  · intro hmem
    simp [fd_write, writeIovs, ha, hb, hd, hn, hn2, hmem]

/-- Concrete memory for the C4 witness's no-terminator half: one iovec at
address 0 pointing at the 2 bytes "ab" at address 16. -/
def c4memNoNl : List Nat :=
  [16, 0, 0, 0, 2, 0, 0, 0, 0, 0, 0, 0, 0, 0, 0, 0,
   97, 98, 0, 0, 0, 0, 0, 0]

/-- Witness for C4: at the concrete inputs, a chunk containing a terminator
flushes the whole accumulator (prior contents [120] included) and resets it,
while a chunk without one merely accumulates. -/
theorem c4_witness :
    fd_write [120] c4mem 1 0 1 8 =
      ⟨.ok 0, [], writeU32 c4mem 8 3,
        [Event.stdout [120, 97, 10, 98]]⟩ ∧
    fd_write [120] c4memNoNl 1 0 1 8 =
      ⟨.ok 0, [120, 97, 98], writeU32 c4memNoNl 8 2, []⟩ := by
  constructor
  · rw [((c4_flush_whole_buffer [120] c4mem 0 8 (by decide) (by decide)
      (by decide) (by decide) (by decide)).1 (by decide)).1]
    decide
  · rw [(c4_flush_whole_buffer [120] c4memNoNl 0 8 (by decide) (by decide)
      (by decide) (by decide) (by decide)).2 (by decide)]
    decide

/-- If none of the data chunks referenced by the remaining iovec indices
contains a newline byte, the `fd_write` loop on the primary stream posts no
event (the chunks only accumulate in the buffer). -/
lemma writeIovs_no_newline (mem : List Nat) (iovs : Nat) (idxs : List Nat)
    (buf : List Nat) (w : Nat)
    (h : ∀ i ∈ idxs, 10 ∉ sliceMem mem (readU32 mem (iovs + 8 * i))
        (readU32 mem (iovs + 8 * i + 4))) :
    (writeIovs mem iovs 1 idxs buf w).events = [] := by
  induction idxs generalizing buf w with
  | nil => simp [writeIovs]
  | cons i rest ih =>
    have hi := h i (List.mem_cons_self i rest)
    have hrest : ∀ j ∈ rest, 10 ∉ sliceMem mem (readU32 mem (iovs + 8 * j))
        (readU32 mem (iovs + 8 * j + 4)) :=
      fun j hj => h j (List.mem_cons_of_mem i hj)
    by_cases hbnd : readU32 mem (iovs + 8 * i) +
        readU32 mem (iovs + 8 * i + 4) ≤ mem.length
    · simp [writeIovs, hbnd, hi, ih _ _ hrest]
    · simp [writeIovs, hbnd]

/-- A primary-stream `fd_write` call none of whose vectors' data contains a
newline byte posts no event, whatever its outcome. -/
lemma fd_write_no_newline (buf mem : List Nat) (iovs iovsLen nwritten : Nat)
    (h : ∀ i ∈ List.range iovsLen,
        10 ∉ sliceMem mem (readU32 mem (iovs + 8 * i))
          (readU32 mem (iovs + 8 * i + 4))) :
    (fd_write buf mem 1 iovs iovsLen nwritten).events = [] := by
  have he := writeIovs_no_newline mem iovs (List.range iovsLen) buf 0 h
  simp only [fd_write]
  split
  · split
    · split
      · simpa using he
      · split
        · simpa using he
        · simpa using he
    · rfl
  · simp at *

/-- A sequence of primary-stream `fd_write` calls none of whose vectors'
data contains a newline byte posts no event at all. -/
lemma runWrites_no_newline (calls : List WriteCall) (buf : List Nat)
    (h : ∀ c ∈ calls, ∀ i ∈ List.range c.iovsLen,
        10 ∉ sliceMem c.mem (readU32 c.mem (c.iovs + 8 * i))
          (readU32 c.mem (c.iovs + 8 * i + 4))) :
    (runWrites buf calls).2 = [] := by
  induction calls generalizing buf with
  | nil => rfl
  | cons c rest ih =>
    have hc := h c (List.mem_cons_self c rest)
    have hrest : ∀ d ∈ rest, ∀ i ∈ List.range d.iovsLen,
        10 ∉ sliceMem d.mem (readU32 d.mem (d.iovs + 8 * i))
          (readU32 d.mem (d.iovs + 8 * i + 4)) :=
      fun d hd => h d (List.mem_cons_of_mem c hd)
    simp [runWrites, fd_write_no_newline _ _ _ _ _ hc, ih _ hrest]

/-- Memory for the first C1 scenario call: one iovec at address 0 pointing
at the 6 bytes "hello " stored at address 16. -/
def c1mem1 : List Nat :=
  [16, 0, 0, 0, 6, 0, 0, 0, 0, 0, 0, 0, 0, 0, 0, 0,
   104, 101, 108, 108, 111, 32, 0, 0]

/-- Memory for the second C1 scenario call: one iovec at address 0 pointing
at the 6 bytes "world\x0a" stored at address 16. -/
def c1mem2 : List Nat :=
  [16, 0, 0, 0, 6, 0, 0, 0, 0, 0, 0, 0, 0, 0, 0, 0,
   119, 111, 114, 108, 100, 10, 0, 0]

/-- C1: (i) over any sequence of primary-stream write calls in which no
vector's data contains a line terminator, no `stdout` event is posted; and
(ii) the concrete scenario: writing "hello " in one call and "world\x0a" in
a later call, starting from an empty accumulator, posts exactly one
`stdout` event, carrying "hello world\x0a", and empties the accumulator. -/
theorem c1_stdout_line_buffering :
    (∀ (calls : List WriteCall) (buf : List Nat),
        (∀ c ∈ calls, ∀ i ∈ List.range c.iovsLen,
          10 ∉ sliceMem c.mem (readU32 c.mem (c.iovs + 8 * i))
            (readU32 c.mem (c.iovs + 8 * i + 4))) →
        (runWrites buf calls).2 = []) ∧
    runWrites [] [⟨c1mem1, 0, 1, 8⟩, ⟨c1mem2, 0, 1, 8⟩] =
      ([], [Event.stdout (strBytes "hello world\x0a")]) := by
  refine ⟨runWrites_no_newline, ?_⟩
  decide

/-- Witness for C1: the no-terminator branch applied at the concrete
one-call sequence writing "hello " — no event is posted. -/
theorem c1_witness :
    (runWrites [] [⟨c1mem1, 0, 1, 8⟩]).2 = [] :=
  c1_stdout_line_buffering.1 [⟨c1mem1, 0, 1, 8⟩] [] (by decide)

/-- C2: whenever a stream-0 read-hook call on a non-empty Inbound Queue
completes with success status 0 — however many bytes actually fit into the
module's vectors — the queue is left completely empty afterwards (any
uncopied remainder is discarded, not retained); and once the queue is
empty, every further read-hook call fails with -1 and leaves the queue
empty and the memory untouched, until new external input arrives. -/
theorem c2_read_drains_queue (sBuf mem : List Nat) (iovs iovsLen nread : Nat)
    (hne : sBuf ≠ [])
    (hok : (fd_read sBuf mem 0 iovs iovsLen nread).outcome = .ok 0) :
    (fd_read sBuf mem 0 iovs iovsLen nread).stdinBuffer = [] ∧
    ∀ (mem' : List Nat) (fd : Int) (iovs' iovsLen' nread' : Nat),
      fd_read [] mem' fd iovs' iovsLen' nread' = ⟨.ok (-1), [], mem'⟩ := by
  refine ⟨?_, fun mem' fd iovs' iovsLen' nread' => by simp [fd_read]⟩
  simp only [fd_read, hne] at hok ⊢
  split at hok
  · split at hok
    · split at hok
      · simp_all [fd_read]
      · split at hok
        · simp_all [fd_read]
        · simp_all [fd_read]
    · simp_all [fd_read]
  · simp_all [fd_read]

/-- Memory for the C2 witness: one iovec at address 0 with capacity only 2
bytes (pointer 16), against a 4-byte queue. -/
def c2mem : List Nat :=
  [16, 0, 0, 0, 2, 0, 0, 0, 0, 0, 0, 0, 0, 0, 0, 0,
   0, 0, 0, 0, 0, 0, 0, 0]

/-- Witness for C2: a 4-byte queue "ABCD" read into a single 2-byte vector
copies only 2 bytes, yet the queue ends up empty — and a follow-up read on
the empty queue fails with -1 leaving memory untouched. -/
theorem c2_witness :
    (fd_read [65, 66, 67, 68] c2mem 0 0 1 8).stdinBuffer = [] ∧
    fd_read [] c2mem 0 0 1 8 = ⟨.ok (-1), [], c2mem⟩ := by
  have h := c2_read_drains_queue [65, 66, 67, 68] c2mem 0 1 8
    (by decide) (by decide)
  exact ⟨h.1, h.2 c2mem 0 0 1 8⟩

/-- The `onmessage` handler always appends the message's data to the
Inbound Queue, whether or not it also triggers a load. -/
lemma onmessage_stdinBuffer (o : String → LoadOutcome) (s : Session)
    (m : StdinMsg) :
    ((onmessage o s m).1).stdinBuffer = s.stdinBuffer ++ m.data := by
  by_cases hl : s.loaded <;> simp [onmessage, hl]

/-- A sequence of `stdin` messages leaves the Inbound Queue holding the
byte-level concatenation of all their data chunks, in arrival order. -/
lemma runStdins_stdinBuffer (o : String → LoadOutcome) (s : Session)
    (msgs : List StdinMsg) :
    (runStdins o s msgs).1.stdinBuffer =
      s.stdinBuffer ++ (msgs.map StdinMsg.data).flatten := by
  induction msgs generalizing s with
  | nil => simp [runStdins]
  | cons m rest ih =>
    simp [runStdins, ih, onmessage_stdinBuffer, List.append_assoc]

/-- Memory for the C5 scenario read: one iovec at address 0 with capacity
16 bytes at pointer 16. -/
def c5mem : List Nat :=
  [16, 0, 0, 0, 16, 0, 0, 0, 0, 0, 0, 0, 0, 0, 0, 0,
   0, 0, 0, 0, 0, 0, 0, 0, 0, 0, 0, 0, 0, 0, 0, 0]

/-- C5: (i) delivering chunks `a` then `b` in two `stdin` messages leaves
the Inbound Queue exactly as delivering the single chunk `a ++ b` — for any
starting session state and any source locators; and (ii) in the concrete
scenario, after "AB" then "CD" arrive on a fresh session, a single read
call delivers "ABCD" contiguously into the module's memory (one delivery of
4 bytes) and empties the queue. -/
theorem c5_concatenation :
    (∀ (outcomes : String → LoadOutcome) (s : Session) (l1 l2 l : String)
        (a b : List Nat),
        (runStdins outcomes s [⟨l1, a⟩, ⟨l2, b⟩]).1.stdinBuffer =
          (runStdins outcomes s [⟨l, a ++ b⟩]).1.stdinBuffer) ∧
    ((runStdins (fun _ => .ok) ⟨[], [], false⟩
        [⟨"s.wasm", [65, 66]⟩, ⟨"s.wasm", [67, 68]⟩]).1.stdinBuffer =
      [65, 66, 67, 68] ∧
     sliceMem (fd_read [65, 66, 67, 68] c5mem 0 0 1 8).memory 16 4 =
      [65, 66, 67, 68] ∧
     readU32 (fd_read [65, 66, 67, 68] c5mem 0 0 1 8).memory 8 = 4 ∧
     (fd_read [65, 66, 67, 68] c5mem 0 0 1 8).stdinBuffer = [] ∧
     (fd_read [65, 66, 67, 68] c5mem 0 0 1 8).outcome = .ok 0) := by
  refine ⟨fun outcomes s l1 l2 l a b => ?_, by decide⟩
  simp [runStdins_stdinBuffer]

/-- While `wasmInstance` is non-null, `onmessage` only appends to the
Inbound Queue: it posts nothing and triggers no load. -/
lemma onmessage_loaded_true (o : String → LoadOutcome) (s : Session)
    (m : StdinMsg) (h : s.loaded = true) :
    onmessage o s m =
      ({ s with stdinBuffer := s.stdinBuffer ++ m.data }, [], []) := by
  simp [onmessage, h]

/-- While `wasmInstance` is non-null, no sequence of further `stdin`
messages triggers a load or posts an event. -/
lemma runStdins_loaded_true (o : String → LoadOutcome) (s : Session)
    (msgs : List StdinMsg) (h : s.loaded = true) :
    (runStdins o s msgs).2.2 = [] ∧ (runStdins o s msgs).2.1 = [] := by
  induction msgs generalizing s with
  | nil => simp [runStdins]
  | cons m rest ih =>
    have h2 : ({ s with stdinBuffer := s.stdinBuffer ++ m.data } :
        Session).loaded = true := h
    have hr := ih { s with stdinBuffer := s.stdinBuffer ++ m.data } h2
    simp [runStdins, onmessage_loaded_true o s m h, hr.1, hr.2]

/-- C6 (amended): (i) while a Module Instance exists (`wasmInstance`
non-null), no later `stdin` message ever triggers loading — its
`serverPath` is ignored — so at most one instance exists at a time; and
(ii) if the session starts unloaded and the first message's load installs
an instance (successful instantiation, whether or not the entry point later
traps), then over the whole message sequence loading is triggered exactly
once, with exactly the first message's source locator.  (The original
claim's unconditional form is false: when the first load fails,
`wasmInstance` stays null and the next message triggers a fresh load with
its own locator — see the counterexample.) -/
theorem c6_load_once_amended :
    (∀ (outcomes : String → LoadOutcome) (s : Session)
        (msgs : List StdinMsg),
        s.loaded = true →
        (runStdins outcomes s msgs).2.2 = [] ∧
        (runStdins outcomes s msgs).2.1 = []) ∧
    (∀ (outcomes : String → LoadOutcome) (m : StdinMsg)
        (rest : List StdinMsg) (s : Session),
        s.loaded = false →
        (initWasm (outcomes m.serverPath) m.serverPath).1 = true →
        (runStdins outcomes s (m :: rest)).2.2 = [m.serverPath]) := by
  refine ⟨fun o s msgs h => runStdins_loaded_true o s msgs h, ?_⟩
  intro o m rest s hs hinst
  have h1 : ((onmessage o s m).1).loaded = true := by
    simp [onmessage, hs, hinst]
  have h2 := (runStdins_loaded_true o ((onmessage o s m).1) rest h1).1
  simp [onmessage, hs] at h2
  simp [runStdins, h2, onmessage, hs]

/-- Witness for C6: with every load succeeding, an already-loaded session
triggers nothing, and a fresh session with two messages loads exactly once
with the first locator. -/
theorem c6_witness :
    (runStdins (fun _ => .ok) ⟨[], [], true⟩
        [⟨"b.wasm", [70]⟩]).2.2 = [] ∧
    (runStdins (fun _ => .ok) ⟨[], [], false⟩
        [⟨"a.wasm", [70]⟩, ⟨"b.wasm", [71]⟩]).2.2 = ["a.wasm"] :=
  ⟨(c6_load_once_amended.1 (fun _ => .ok) ⟨[], [], true⟩
      [⟨"b.wasm", [70]⟩] rfl).1,
   c6_load_once_amended.2 (fun _ => .ok) ⟨"a.wasm", [70]⟩
      [⟨"b.wasm", [71]⟩] ⟨[], [], false⟩ rfl rfl⟩

/-- Environment for the C6 counterexample: fetching "good.wasm" succeeds,
anything else fails to instantiate. -/
def c6outcomes : String → LoadOutcome :=
  fun p => if p = "good.wasm" then .ok else .loadError "fetch failed"

/-- C6 counterexample: on a fresh session, a first message naming
"bad.wasm" (whose load fails, leaving `wasmInstance` null) followed by a
second message naming "good.wasm" triggers `initWasm` twice — the second
message's source locator is used, not ignored — refuting "loading is
triggered only by the first message". -/
theorem c6_counterexample :
    (runStdins c6outcomes ⟨[], [], false⟩
        [⟨"bad.wasm", [65]⟩, ⟨"good.wasm", [66]⟩]).2.2 =
      ["bad.wasm", "good.wasm"] ∧
    ["bad.wasm", "good.wasm"] ≠ ["bad.wasm"] := by
  refine ⟨rfl, by simp⟩

/-- A load attempt whose outcome is not a clean success never posts an
`init` message (both failure branches post only the translated `stderr`). -/
lemma initWasm_no_init (oc : LoadOutcome) (path p : String)
    (h : oc ≠ .ok) : Event.init p ∉ (initWasm oc path).2 := by
  cases oc with
  | ok => exact absurd rfl h
  | loadError msg => simp [initWasm]
  | startTrap msg => simp [initWasm]

/-- If no message's source locator loads successfully, the whole session
trace contains no `init` event. -/
lemma runStdins_no_init (o : String → LoadOutcome) (s : Session)
    (msgs : List StdinMsg) (p : String)
    (h : ∀ m ∈ msgs, o m.serverPath ≠ .ok) :
    Event.init p ∉ (runStdins o s msgs).2.1 := by
  induction msgs generalizing s with
  | nil => simp [runStdins]
  | cons m rest ih =>
    have hm := h m (List.mem_cons_self m rest)
    have hrest : ∀ d ∈ rest, o d.serverPath ≠ .ok :=
      fun d hd => h d (List.mem_cons_of_mem m hd)
    by_cases hl : s.loaded
    · simp only [runStdins, onmessage, hl, if_true]
      simpa using ih _ hrest
    · simp only [runStdins, onmessage, hl, if_false, List.mem_append, not_or]
      exact ⟨by simpa using initWasm_no_init _ _ p hm,
        by simpa using ih _ hrest⟩

/-- C8: (i) in any session none of whose messages' loads succeed (bad
source locator, invalid binary, failed instantiation, or an entry-point
trap), no `init` event is ever posted; (ii) a fresh session whose single
message's load fails posts exactly one event: a `stderr` describing the
failure; (iii) a runtime trap in the entry point is likewise translated to
a single `stderr` event with no `init`, `initWasm` returning normally (no
unhandled crash of the host — the `try/catch` swallows the exception). -/
theorem c8_load_failure_reporting :
    (∀ (outcomes : String → LoadOutcome) (s : Session)
        (msgs : List StdinMsg) (p : String),
        (∀ m ∈ msgs, outcomes m.serverPath ≠ .ok) →
        Event.init p ∉ (runStdins outcomes s msgs).2.1) ∧
    (∀ (outcomes : String → LoadOutcome) (m : StdinMsg) (msg : String),
        outcomes m.serverPath = .loadError msg →
        (runStdins outcomes ⟨[], [], false⟩ [m]).2.1 =
          [Event.stderr (strBytes ("Init error: " ++ msg))]) ∧
    (∀ (msg path : String),
        initWasm (.startTrap msg) path =
          (true, [Event.stderr (strBytes ("Init error: " ++ msg))])) := by
  refine ⟨fun o s msgs p h => runStdins_no_init o s msgs p h, ?_,
    fun msg path => rfl⟩
  intro o m msg h
  simp [runStdins, onmessage, initWasm, h]

/-- Witness for C8 on a concrete failing session: one message, load fails
with "boom" — the trace is exactly one descriptive `stderr` and contains no
`init`. -/
theorem c8_witness :
    Event.init "x.wasm" ∉ (runStdins (fun _ => LoadOutcome.loadError "boom")
        ⟨[], [], false⟩ [⟨"x.wasm", [65]⟩]).2.1 ∧
    (runStdins (fun _ => LoadOutcome.loadError "boom") ⟨[], [], false⟩
        [⟨"x.wasm", [65]⟩]).2.1 =
      [Event.stderr (strBytes ("Init error: " ++ "boom"))] :=
  ⟨c8_load_failure_reporting.1 (fun _ => LoadOutcome.loadError "boom")
      ⟨[], [], false⟩ [⟨"x.wasm", [65]⟩] "x.wasm"
      (by intro m hm; simp),
   c8_load_failure_reporting.2.1 (fun _ => LoadOutcome.loadError "boom")
      ⟨"x.wasm", [65]⟩ "boom" rfl⟩
